import Mathlib

/-! Shallow embedding of `src/valid.py`, the business-logic layer of the
Rick and Morty character catalog: the enumerations with lenient string
coercion, the character parser, the filter/sort engine, the validator and
the statistics aggregator, together with theorems checking the
specification's claims about them.  Python strings are modelled as Lean
`String`, Python `int` as `Int`, Python `float` results as exact
rationals, and Python dictionaries (which preserve insertion order) as
association lists. -/

namespace RMCatalog

/-! ### Python string primitives used by the source -/

/-- Model of Python `str.lower` (ASCII case folding, which covers every
label appearing in the source). -/
def pyLower (s : String) : String :=
  String.mk (s.data.map Char.toLower)

/-- Model of Python `str.strip()`: remove leading and trailing whitespace. -/
def pyStrip (s : String) : String :=
  String.mk (((s.data.dropWhile Char.isWhitespace).reverse.dropWhile
    Char.isWhitespace).reverse)

/-- Model of Python `str.rstrip('/')`: remove trailing slashes. -/
def pyRstripSlash (s : String) : String :=
  String.mk ((s.data.reverse.dropWhile (fun c => c == '/')).reverse)

/-- Model of Python `str.split('/')` on the character list: keeps empty
segments, and the empty string splits to `[""]`, exactly as in Python. -/
def splitSlashAux : List Char → List String
  | [] => [""]
  | c :: cs =>
    let rest := splitSlashAux cs
    if c == '/' then "" :: rest
    else
      match rest with
      | [] => [String.mk [c]]
      | s :: ss => String.mk (c :: s.data) :: ss

/-- Model of Python `str.split('/')`. -/
def pySplitSlash (s : String) : List String :=
  splitSlashAux s.data

/-- Numeric value of a list of ASCII digits. -/
def digitsToNat (cs : List Char) : Nat :=
  cs.foldl (fun acc c => acc * 10 + (c.toNat - 48)) 0

/-- Model of Python `int(s)`: optional surrounding whitespace, an optional
sign, then one or more ASCII digits; `none` models a raised `ValueError`.
(Digit-group underscores and non-ASCII digits are not modelled.) -/
def pyInt (s : String) : Option Int :=
  match (pyStrip s).data with
  | [] => none
  | c :: cs =>
    if c == '-' then
      if cs ≠ [] ∧ cs.all Char.isDigit then some (-(digitsToNat cs : Int)) else none
    else if c == '+' then
      if cs ≠ [] ∧ cs.all Char.isDigit then some ((digitsToNat cs : Int)) else none
    else
      if (c :: cs).all Char.isDigit then some ((digitsToNat (c :: cs) : Int)) else none

/-- `startsList a b`: `a` is an initial run of `b`. -/
def startsList : List Char → List Char → Bool
  | [], _ => true
  | _ :: _, [] => false
  | a :: xs, b :: ys => a == b && startsList xs ys

/-- Contiguous-substring test on character lists (Python `needle in hay`). -/
def subList (needle : List Char) : List Char → Bool
  | [] => needle.isEmpty
  | c :: cs => startsList needle (c :: cs) || subList needle cs

/-- Model of Python `needle in hay` for strings. -/
def strContains (hay needle : String) : Bool :=
  subList needle.data hay.data

/-! ### Enumerations (`CharacterStatus`, `Gender`, `Species`, sort enums) -/

/-- `CharacterStatus` from the source. -/
inductive CharacterStatus where
  | ALIVE
  | DEAD
  | UNKNOWN
deriving DecidableEq

/-- The `value` attribute of each `CharacterStatus` member. -/
def CharacterStatus.value : CharacterStatus → String
  | .ALIVE => "Alive"
  | .DEAD => "Dead"
  | .UNKNOWN => "unknown"

/-- `CharacterStatus.from_string`: the source's `for status in cls` loop,
unrolled in member-declaration order; the first member whose lowered label
equals `value.lower().strip()` is returned, else `UNKNOWN`. -/
def CharacterStatus.from_string (value : String) : CharacterStatus :=
  if pyLower CharacterStatus.ALIVE.value == pyStrip (pyLower value) then .ALIVE
  else if pyLower CharacterStatus.DEAD.value == pyStrip (pyLower value) then .DEAD
  else if pyLower CharacterStatus.UNKNOWN.value == pyStrip (pyLower value) then .UNKNOWN
  else .UNKNOWN

/-- `Gender` from the source. -/
inductive Gender where
  | MALE
  | FEMALE
  | GENDERLESS
  | UNKNOWN
deriving DecidableEq

/-- The `value` attribute of each `Gender` member. -/
def Gender.value : Gender → String
  | .MALE => "Male"
  | .FEMALE => "Female"
  | .GENDERLESS => "Genderless"
  | .UNKNOWN => "unknown"

/-- `Gender.from_string`, the member loop unrolled in declaration order. -/
def Gender.from_string (value : String) : Gender :=
  if pyLower Gender.MALE.value == pyStrip (pyLower value) then .MALE
  else if pyLower Gender.FEMALE.value == pyStrip (pyLower value) then .FEMALE
  else if pyLower Gender.GENDERLESS.value == pyStrip (pyLower value) then .GENDERLESS
  else if pyLower Gender.UNKNOWN.value == pyStrip (pyLower value) then .UNKNOWN
  else .UNKNOWN

/-- `Species` from the source. -/
inductive Species where
  | HUMAN
  | ALIEN
  | HUMANOID
  | ROBOT
  | ANIMAL
  | UNKNOWN
deriving DecidableEq

/-- The `value` attribute of each `Species` member. -/
def Species.value : Species → String
  | .HUMAN => "Human"
  | .ALIEN => "Alien"
  | .HUMANOID => "Humanoid"
  | .ROBOT => "Robot"
  | .ANIMAL => "Animal"
  | .UNKNOWN => "unknown"

/-- `Species.from_string`, the member loop unrolled in declaration order. -/
def Species.from_string (value : String) : Species :=
  if pyLower Species.HUMAN.value == pyStrip (pyLower value) then .HUMAN
  else if pyLower Species.ALIEN.value == pyStrip (pyLower value) then .ALIEN
  else if pyLower Species.HUMANOID.value == pyStrip (pyLower value) then .HUMANOID
  else if pyLower Species.ROBOT.value == pyStrip (pyLower value) then .ROBOT
  else if pyLower Species.ANIMAL.value == pyStrip (pyLower value) then .ANIMAL
  else if pyLower Species.UNKNOWN.value == pyStrip (pyLower value) then .UNKNOWN
  else .UNKNOWN

/-- `SortField` from the source. -/
inductive SortField where
  | ID
  | NAME
  | STATUS
  | EPISODES
deriving DecidableEq

/-- `SortOrder` from the source. -/
inductive SortOrder where
  | ASC
  | DESC
deriving DecidableEq

/-! ### C1: total, lenient enum coercion -/

/-- C1: for every input string `s`, enum coercion (`CharacterStatus.from_string`,
`Species.from_string`, `Gender.from_string`) is total (it always returns a value,
which the Lean type already enforces); if `s` lowered and stripped equals the
lowered label of a member of the enumeration, that member is returned, and
otherwise the `UNKNOWN` member is returned. -/
theorem c1_enum_coercion_total_lenient (s : String) :
    (∀ st : CharacterStatus, pyStrip (pyLower s) = pyLower st.value →
      CharacterStatus.from_string s = st) ∧
    ((∀ st : CharacterStatus, pyStrip (pyLower s) ≠ pyLower st.value) →
      CharacterStatus.from_string s = CharacterStatus.UNKNOWN) ∧
    (∀ g : Gender, pyStrip (pyLower s) = pyLower g.value →
      Gender.from_string s = g) ∧
    ((∀ g : Gender, pyStrip (pyLower s) ≠ pyLower g.value) →
      Gender.from_string s = Gender.UNKNOWN) ∧
    (∀ sp : Species, pyStrip (pyLower s) = pyLower sp.value →
      Species.from_string s = sp) ∧
    ((∀ sp : Species, pyStrip (pyLower s) ≠ pyLower sp.value) →
      Species.from_string s = Species.UNKNOWN) := by
  refine ⟨?_, ?_, ?_, ?_, ?_, ?_⟩
  · intro st h
    cases st <;> simp only [CharacterStatus.from_string, h] <;> decide
  · intro h
    have e1 : (pyLower CharacterStatus.ALIVE.value == pyStrip (pyLower s)) = false :=
      beq_eq_false_iff_ne.mpr (fun hh => h .ALIVE hh.symm)
    have e2 : (pyLower CharacterStatus.DEAD.value == pyStrip (pyLower s)) = false :=
      beq_eq_false_iff_ne.mpr (fun hh => h .DEAD hh.symm)
    have e3 : (pyLower CharacterStatus.UNKNOWN.value == pyStrip (pyLower s)) = false :=
      beq_eq_false_iff_ne.mpr (fun hh => h .UNKNOWN hh.symm)
    simp [CharacterStatus.from_string, e1, e2, e3]
  · intro g h
    cases g <;> simp only [Gender.from_string, h] <;> decide
  · intro h
    have e1 : (pyLower Gender.MALE.value == pyStrip (pyLower s)) = false :=
      beq_eq_false_iff_ne.mpr (fun hh => h .MALE hh.symm)
    have e2 : (pyLower Gender.FEMALE.value == pyStrip (pyLower s)) = false :=
      beq_eq_false_iff_ne.mpr (fun hh => h .FEMALE hh.symm)
    have e3 : (pyLower Gender.GENDERLESS.value == pyStrip (pyLower s)) = false :=
      beq_eq_false_iff_ne.mpr (fun hh => h .GENDERLESS hh.symm)
    have e4 : (pyLower Gender.UNKNOWN.value == pyStrip (pyLower s)) = false :=
      beq_eq_false_iff_ne.mpr (fun hh => h .UNKNOWN hh.symm)
    simp [Gender.from_string, e1, e2, e3, e4]
  · intro sp h
    cases sp <;> simp only [Species.from_string, h] <;> decide
  · intro h
    have e1 : (pyLower Species.HUMAN.value == pyStrip (pyLower s)) = false :=
      beq_eq_false_iff_ne.mpr (fun hh => h .HUMAN hh.symm)
    have e2 : (pyLower Species.ALIEN.value == pyStrip (pyLower s)) = false :=
      beq_eq_false_iff_ne.mpr (fun hh => h .ALIEN hh.symm)
    have e3 : (pyLower Species.HUMANOID.value == pyStrip (pyLower s)) = false :=
      beq_eq_false_iff_ne.mpr (fun hh => h .HUMANOID hh.symm)
    have e4 : (pyLower Species.ROBOT.value == pyStrip (pyLower s)) = false :=
      beq_eq_false_iff_ne.mpr (fun hh => h .ROBOT hh.symm)
    have e5 : (pyLower Species.ANIMAL.value == pyStrip (pyLower s)) = false :=
      beq_eq_false_iff_ne.mpr (fun hh => h .ANIMAL hh.symm)
    have e6 : (pyLower Species.UNKNOWN.value == pyStrip (pyLower s)) = false :=
      beq_eq_false_iff_ne.mpr (fun hh => h .UNKNOWN hh.symm)
    simp [Species.from_string, e1, e2, e3, e4, e5, e6]

/-- Witness for C1 at concrete inputs: `" aLiVe "` coerces to `ALIVE`, and a
string outside every known label coerces to `UNKNOWN`. -/
theorem c1_enum_coercion_total_lenient_witness :
    CharacterStatus.from_string " aLiVe " = CharacterStatus.ALIVE ∧
    Gender.from_string "FEMALE" = Gender.FEMALE ∧
    Species.from_string "Meeseeks" = Species.UNKNOWN :=
  ⟨(c1_enum_coercion_total_lenient " aLiVe ").1 .ALIVE (by decide),
   (c1_enum_coercion_total_lenient "FEMALE").2.2.1 .FEMALE (by decide),
   (c1_enum_coercion_total_lenient "Meeseeks").2.2.2.2.2
     (by intro sp; cases sp <;> decide)⟩

/-! ### Domain models -/

/-- `Location` dataclass. -/
structure Location where
  name : String
  url : String := ""
deriving DecidableEq

/-- The shared URL-identifier expression of the source,
`int(url.rstrip('/').split('/')[-1])`, with `none` for a raised error. -/
def urlTrailingInt (url : String) : Option Int :=
  pyInt ((pySplitSlash (pyRstripSlash url)).getLastD "")

/-- `Location.id`: trailing-path-segment integer of the URL, `None` when the
URL is empty (falsy) or the segment is not an integer. -/
def Location.id (l : Location) : Option Int :=
  if l.url == "" then none else urlTrailingInt l.url

/-- `Character` dataclass.  `created` keeps the parsed timestamp as a
normalized string (see `parse_datetime`). -/
structure Character where
  id : Int
  name : String
  status : CharacterStatus
  species : Species
  type : String
  gender : Gender
  origin : Location
  location : Location
  image_url : String
  episode_ids : List Int := []
  url : String := ""
  created : Option String := none
deriving DecidableEq

/-- `Character.episode_count` derived property. -/
def Character.episode_count (c : Character) : Nat :=
  c.episode_ids.length

/-- `Character.is_alive` derived property. -/
def Character.is_alive (c : Character) : Bool :=
  c.status == CharacterStatus.ALIVE

/-! ### JSON parser -/

/-- A raw `origin`/`location` mapping: each field may be absent. -/
structure RawLocation where
  name : Option String := none
  url : Option String := none
deriving DecidableEq

/-- A raw character record: every field of the payload shape may be absent.
A well-typed record (string fields hold strings, `id` holds an integer,
`episode` holds a list of strings) is assumed, as in the spec's payload
contract. -/
structure RawRecord where
  id : Option Int := none
  name : Option String := none
  status : Option String := none
  species : Option String := none
  type : Option String := none
  gender : Option String := none
  origin : Option RawLocation := none
  location : Option RawLocation := none
  image : Option String := none
  episode : Option (List String) := none
  url : Option String := none
  created : Option String := none
deriving DecidableEq

/-- `JsonParseError`: the source raises it with a message interpolating the
offending record; we model the error as carrying that record. -/
structure JsonParseError where
  record : RawRecord
deriving DecidableEq

/-- `CharacterParser._extract_ids_from_urls`: the source's accumulating loop
with `try`/`except … continue`. -/
def extract_ids_from_urls : List String → List Int
  | [] => []
  | url :: rest =>
    match urlTrailingInt url with
    | some i => i :: extract_ids_from_urls rest
    | none => extract_ids_from_urls rest

/-- `CharacterParser._parse_location`. -/
def parse_location (data : RawLocation) : Location :=
  { name := data.name.getD "Unknown", url := data.url.getD "" }

/-- Model of the external `datetime.fromisoformat`: accepts strings opening
with a `YYYY-MM-DD` digit pattern and returns the string itself as the
timestamp value, failing otherwise.  No claim depends on its details; it
only has to be some total function into `Option`. -/
def fromisoformat (s : String) : Option String :=
  match s.data with
  | y1 :: y2 :: y3 :: y4 :: d1 :: m1 :: m2 :: d2 :: a1 :: a2 :: rest =>
    if [y1, y2, y3, y4].all Char.isDigit ∧ d1 = '-' ∧ [m1, m2].all Char.isDigit ∧
        d2 = '-' ∧ [a1, a2].all Char.isDigit ∧ (rest = [] ∨ rest.head? = some 'T') then
      some s
    else none
  | _ => none

/-- `CharacterParser._parse_datetime`: empty string yields `None`; otherwise
`Z` is replaced by `+00:00` and any parse failure yields `None`. -/
def parse_datetime (date_string : String) : Option String :=
  if date_string == "" then none
  else fromisoformat (date_string.replace "Z" "+00:00")

/-- `CharacterParser.parse_character`: raises `JsonParseError` when `id` or
`name` is absent, otherwise builds the `Character` with `data.get` defaults
for every other field. -/
def parse_character (data : RawRecord) : Except JsonParseError Character :=
  match data.id, data.name with
  | some i, some n =>
    .ok {
      id := i
      name := n
      status := CharacterStatus.from_string (data.status.getD "unknown")
      species := Species.from_string (data.species.getD "unknown")
      type := data.type.getD ""
      gender := Gender.from_string (data.gender.getD "unknown")
      origin := parse_location (data.origin.getD {})
      location := parse_location (data.location.getD {})
      image_url := data.image.getD ""
      episode_ids := extract_ids_from_urls (data.episode.getD [])
      url := data.url.getD ""
      created := parse_datetime (data.created.getD "") }
  | _, _ => .error { record := data }

/-- The raw `info` mapping of a list payload. -/
structure RawInfo where
  count : Option Int := none
  pages : Option Int := none
  next : Option String := none
  prev : Option String := none
deriving DecidableEq

/-- A raw list payload (`results` plus `info`). -/
structure RawPayload where
  info : Option RawInfo := none
  results : Option (List RawRecord) := none
deriving DecidableEq

/-- The pagination dictionary built by `parse_character_list`. -/
structure Pagination where
  count : Int
  pages : Int
  next : Option String
  prev : Option String
deriving DecidableEq

/-- The record loop of `parse_character_list`: each record is parsed
independently, a `JsonParseError` is caught (the source prints a warning,
a side effect outside the value semantics) and the record skipped. -/
def parseRecordsLoop : List RawRecord → List Character
  | [] => []
  | r :: rs =>
    match parse_character r with
    | .ok c => c :: parseRecordsLoop rs
    | .error _ => parseRecordsLoop rs

/-- `CharacterParser.parse_character_list`. -/
def parse_character_list (data : RawPayload) : List Character × Pagination :=
  let info := data.info.getD {}
  let pagination : Pagination :=
    { count := info.count.getD 0
      pages := info.pages.getD 0
      next := info.next
      prev := info.prev }
  (parseRecordsLoop (data.results.getD []), pagination)

/-! ### C3: mandatory fields versus graceful defaults in `parse_character` -/

/-- C3: `parse_character` fails with a parse error exactly when `id` or `name`
is absent; when both are present, it returns a `Character` in which each
absent optional field is replaced by its default (`Unknown` enum value, empty
string, empty episode list, absent timestamp, default location). -/
theorem c3_parse_character_mandatory_fields (r : RawRecord) :
    ((∃ e, parse_character r = Except.error e) ↔ (r.id = none ∨ r.name = none)) ∧
    (∀ c, parse_character r = Except.ok c →
      (r.status = none → c.status = CharacterStatus.UNKNOWN) ∧
      (r.species = none → c.species = Species.UNKNOWN) ∧
      (r.gender = none → c.gender = Gender.UNKNOWN) ∧
      (r.type = none → c.type = "") ∧
      (r.image = none → c.image_url = "") ∧
      (r.url = none → c.url = "") ∧
      (r.episode = none → c.episode_ids = []) ∧
      (r.created = none → c.created = none) ∧
      (r.origin = none → c.origin = { name := "Unknown", url := "" }) ∧
      (r.location = none → c.location = { name := "Unknown", url := "" })) := by
  obtain ⟨i, n, st, sp, ty, g, og, lc, im, ep, u, cr⟩ := r
  rcases i with _ | i <;> rcases n with _ | n
  case mk.none.none =>
    refine ⟨⟨fun _ => Or.inl rfl, fun _ => ⟨_, rfl⟩⟩, fun c h => ?_⟩
    exact absurd h (by simp [parse_character])
  case mk.none.some =>
    refine ⟨⟨fun _ => Or.inl rfl, fun _ => ⟨_, rfl⟩⟩, fun c h => ?_⟩
    exact absurd h (by simp [parse_character])
  case mk.some.none =>
    refine ⟨⟨fun _ => Or.inr rfl, fun _ => ⟨_, rfl⟩⟩, fun c h => ?_⟩
    exact absurd h (by simp [parse_character])
  case mk.some.some =>
    constructor
    · constructor
      · rintro ⟨e, he⟩
        simp [parse_character] at he
      · rintro (h | h) <;> simp at h
    · intro c h
      simp only [parse_character, Except.ok.injEq] at h
      subst h
      refine ⟨?_, ?_, ?_, ?_, ?_, ?_, ?_, ?_, ?_, ?_⟩ <;>
        (rintro rfl) <;> rfl

/-- A record carrying only the mandatory fields (all optional fields absent). -/
def rawMinimal : RawRecord :=
  { id := some 1, name := some "Rick Sanchez" }

/-- A record missing the mandatory `id` field. -/
def rawMissingId : RawRecord :=
  { name := some "NoId" }

/-- The character `rawMinimal` parses to: every optional field at its default. -/
def charMinimal : Character :=
  { id := 1, name := "Rick Sanchez", status := .UNKNOWN, species := .UNKNOWN,
    type := "", gender := .UNKNOWN, origin := { name := "Unknown", url := "" },
    location := { name := "Unknown", url := "" }, image_url := "",
    episode_ids := [], url := "", created := none }

/-- Witness for C3: a record without `id` fails; a record with only `id` and
`name` parses with default values for the absent fields. -/
theorem c3_parse_character_mandatory_fields_witness :
    (∃ e, parse_character rawMissingId = Except.error e) ∧
    charMinimal.status = CharacterStatus.UNKNOWN ∧
    charMinimal.episode_ids = [] ∧
    charMinimal.created = none :=
  ⟨(c3_parse_character_mandatory_fields rawMissingId).1.mpr (Or.inl rfl),
   ((c3_parse_character_mandatory_fields rawMinimal).2 charMinimal rfl).1 rfl,
   ((c3_parse_character_mandatory_fields rawMinimal).2 charMinimal rfl).2.2.2.2.2.2.1 rfl,
   ((c3_parse_character_mandatory_fields rawMinimal).2 charMinimal rfl).2.2.2.2.2.2.2.1 rfl⟩

/-! ### C4: episode URL extraction -/

/-- The spec's scenario record: three episode URLs, one of them malformed. -/
def rawScenario : RawRecord :=
  { id := some 1, name := some "Rick Sanchez", status := some "Alive",
    species := some "Human", gender := some "Male",
    origin := some { name := some "Earth", url := some "" },
    location := some { name := some "Earth", url := some "" },
    image := some "x.png",
    episode := some ["/api/episode/1", "/api/episode/2", "bad-url"] }

/-- C4: the extracted `episode_ids` are exactly the trailing-path-segment
integers of the URLs that parse, in input order (`filterMap` of the per-URL
parse); their number never exceeds the URL count; and the spec's scenario
record parses to `episode_ids = [1, 2]` with `episode_count = 2`. -/
theorem c4_episode_ids_extraction (urls : List String) :
    extract_ids_from_urls urls = urls.filterMap urlTrailingInt ∧
    (extract_ids_from_urls urls).length ≤ urls.length ∧
    (∃ c, parse_character rawScenario = Except.ok c ∧
      c.episode_ids = [1, 2] ∧ c.episode_count = 2) := by
  have hmap : extract_ids_from_urls urls = urls.filterMap urlTrailingInt := by
    induction urls with
    | nil => rfl
    | cons url rest ih =>
      cases h : urlTrailingInt url <;>
        simp [extract_ids_from_urls, List.filterMap_cons, h, ih]
  refine ⟨hmap, ?_, ?_⟩
  · rw [hmap]
    exact List.length_filterMap_le _ _
  · exact ⟨_, rfl, by decide, by decide⟩

/-! ### C6: batch parsing skips bad records and never aborts -/

/-- The record loop equals a `filterMap` of the independent per-record parses. -/
theorem parseRecordsLoop_eq_filterMap (l : List RawRecord) :
    parseRecordsLoop l = l.filterMap (fun r => (parse_character r).toOption) := by
  induction l with
  | nil => rfl
  | cons r rs ih =>
    cases h : parse_character r <;>
      simp [parseRecordsLoop, h, ih, Except.toOption]

/-- C6: `parse_character_list` parses every record of `results` independently
and keeps the successes in input order; a record whose parse fails is skipped
(after a side-channel warning) and removing it changes nothing else — the
batch call itself never fails. -/
theorem c6_batch_parse_skips_bad_records (payload : RawPayload) :
    (parse_character_list payload).1 =
      (payload.results.getD []).filterMap (fun r => (parse_character r).toOption) ∧
    (∀ (pre post : List RawRecord) (bad : RawRecord) (e : JsonParseError),
      parse_character bad = Except.error e →
      (parse_character_list
        { info := payload.info, results := some (pre ++ bad :: post) }).1 =
      (parse_character_list
        { info := payload.info, results := some (pre ++ post) }).1) := by
  constructor
  · simp [parse_character_list, parseRecordsLoop_eq_filterMap]
  · intro pre post bad e hbad
    simp [parse_character_list, parseRecordsLoop_eq_filterMap,
      List.filterMap_append, List.filterMap_cons, hbad, Except.toOption]

/-- Witness for C6: inserting a record that fails to parse into a batch leaves
the parsed characters of the batch unchanged. -/
theorem c6_batch_parse_skips_bad_records_witness :
    (parse_character_list
      { info := none, results := some ([rawMinimal] ++ rawMissingId :: []) }).1 =
    (parse_character_list
      { info := none, results := some ([rawMinimal] ++ []) }).1 :=
  (c6_batch_parse_skips_bad_records { info := none, results := some [rawMinimal] }).2
    [rawMinimal] [] rawMissingId { record := rawMissingId } rfl

/-! ### Filter engine -/

/-- `FilterCriteria` dataclass: every field optional, default `None`. -/
structure FilterCriteria where
  name : Option String := none
  status : Option CharacterStatus := none
  species : Option Species := none
  gender : Option Gender := none
  min_episodes : Option Int := none
  max_episodes : Option Int := none
deriving DecidableEq

/-- `FilterCriteria.is_empty`: all fields are `None`. -/
def FilterCriteria.is_empty (c : FilterCriteria) : Bool :=
  c.name.isNone && c.status.isNone && c.species.isNone && c.gender.isNone &&
    c.min_episodes.isNone && c.max_episodes.isNone

/-- Python truthiness of an optional string (`if criteria.name:`): present
and non-empty. -/
def optStrTruthy : Option String → Bool
  | none => false
  | some s => !(s == "")

/-- One narrowing pass of the source, `if <set>: result = [c for c in result
if <pred>]`: filter when the criterion is set, otherwise pass through. -/
def condFilter (b : Bool) (p : α → Bool) (l : List α) : List α :=
  if b then l.filter p else l

/-- Sequential application of narrowing passes, first pass first. -/
def applyPasses (ps : List (Bool × (α → Bool))) (l : List α) : List α :=
  ps.foldl (fun acc bp => condFilter bp.1 bp.2 acc) l

/-- The six narrowing passes of `FilterEngine.filter_characters`, in source
order: name substring (case-insensitive, applied only when the name string
is truthy), exact status/species/gender match, then the inclusive episode
bounds (applied whenever the bound `is not None`). -/
def criteriaPasses (criteria : FilterCriteria) : List (Bool × (Character → Bool)) :=
  [ (optStrTruthy criteria.name,
      fun c => strContains (pyLower c.name) (pyLower (criteria.name.getD ""))),
    (criteria.status.isSome, fun c => some c.status == criteria.status),
    (criteria.species.isSome, fun c => some c.species == criteria.species),
    (criteria.gender.isSome, fun c => some c.gender == criteria.gender),
    (criteria.min_episodes.isSome,
      fun c => decide (criteria.min_episodes.getD 0 ≤ (c.episode_count : Int))),
    (criteria.max_episodes.isSome,
      fun c => decide ((c.episode_count : Int) ≤ criteria.max_episodes.getD 0)) ]

/-- `FilterEngine.filter_characters`: empty criteria short-circuit to the
identical collection, otherwise the six passes narrow a copy in sequence. -/
def filter_characters (characters : List Character) (criteria : FilterCriteria) :
    List Character :=
  if criteria.is_empty then characters
  else applyPasses (criteriaPasses criteria) characters

theorem condFilter_idem (b : Bool) (p : α → Bool) (l : List α) :
    condFilter b p (condFilter b p l) = condFilter b p l := by
  cases b <;> simp [condFilter, List.filter_filter, Bool.and_self]

theorem condFilter_comm (b b' : Bool) (p q : α → Bool) (l : List α) :
    condFilter b p (condFilter b' q l) = condFilter b' q (condFilter b p l) := by
  cases b <;> cases b' <;> simp [condFilter, List.filter_filter, Bool.and_comm]

theorem applyPasses_cons (bp : Bool × (α → Bool)) (rest : List (Bool × (α → Bool)))
    (l : List α) :
    applyPasses (bp :: rest) l = applyPasses rest (condFilter bp.1 bp.2 l) := rfl

theorem condFilter_applyPasses (b : Bool) (p : α → Bool)
    (ps : List (Bool × (α → Bool))) (l : List α) :
    condFilter b p (applyPasses ps l) = applyPasses ps (condFilter b p l) := by
  induction ps generalizing l with
  | nil => rfl
  | cons bp rest ih =>
    simp only [applyPasses_cons]
    rw [ih, condFilter_comm]

theorem applyPasses_idem (ps : List (Bool × (α → Bool))) (l : List α) :
    applyPasses ps (applyPasses ps l) = applyPasses ps l := by
  induction ps generalizing l with
  | nil => rfl
  | cons bp rest ih =>
    simp only [applyPasses_cons]
    rw [condFilter_applyPasses, condFilter_idem, ih]

/-- C2: filtering is idempotent — `filter(filter(C,F),F) == filter(C,F)` for
every collection `C` and criteria `F` — and the all-unset criteria object is
an identity: `filter(C, empty-criteria)` returns `C` itself, not an error. -/
theorem c2_filter_idempotent_empty_identity (cs : List Character) (crit : FilterCriteria) :
    filter_characters (filter_characters cs crit) crit = filter_characters cs crit ∧
    filter_characters cs {} = cs := by
  constructor
  · by_cases h : crit.is_empty <;>
      simp [filter_characters, h, applyPasses_idem]
  · rfl

/-! ### Sort engine -/

/-- Stable insertion of `x` into `l`: `x` goes before the first element `y`
with `le x y`.  For a total preorder `le`, `sortLe` computes the unique
stable ordering, which is what Python's `sorted` guarantees; `reverse=True`
is modelled by flipping the comparison (as CPython does), which keeps the
sort stable rather than reversing ties. -/
def insertLe (le : α → α → Bool) (x : α) : List α → List α
  | [] => [x]
  | y :: ys => if le x y then x :: y :: ys else y :: insertLe le x ys

/-- Stable sort by the comparison `le` (model of Python `sorted`). -/
def sortLe (le : α → α → Bool) : List α → List α
  | [] => []
  | x :: xs => insertLe le x (sortLe le xs)

/-- The values the source's `key_map` lambdas return: an integer or a string. -/
inductive SKey where
  | int (i : Int)
  | str (s : String)
deriving DecidableEq

/-- Lexicographic comparison of character lists (Python string `<=`). -/
def charListLe : List Char → List Char → Bool
  | [], _ => true
  | _ :: _, [] => false
  | a :: xs, b :: ys => if a < b then true else if b < a then false else charListLe xs ys

/-- Python `<=` on strings. -/
def strLe (a b : String) : Bool :=
  charListLe a.data b.data

/-- Ordering on sort keys; keys of one sort run are always of one variant,
so the cross-variant cases are never exercised. -/
def SKey.le : SKey → SKey → Bool
  | .int a, .int b => decide (a ≤ b)
  | .str a, .str b => strLe a b
  | .int _, .str _ => true
  | .str _, .int _ => false

/-- The source's `key_map`: field-indexed key extractors.  (The dictionary
`get` fallback `lambda c: c.id` is unreachable: `SortField` is exhaustive.) -/
def sortKey : SortField → Character → SKey
  | .ID, c => .int c.id
  | .NAME, c => .str (pyLower c.name)
  | .STATUS, c => .str c.status.value
  | .EPISODES, c => .int (c.episode_count : Int)

/-- `SortCriteria` dataclass. -/
structure SortCriteria where
  field : SortField := .ID
  order : SortOrder := .ASC
deriving DecidableEq

/-- `FilterEngine.sort_characters`: stable sort by the selected key,
ascending, or with the comparison reversed for `DESC`. -/
def sort_characters (characters : List Character) (criteria : SortCriteria) :
    List Character :=
  match criteria.order with
  | .ASC => sortLe (fun a b => SKey.le (sortKey criteria.field a) (sortKey criteria.field b))
      characters
  | .DESC => sortLe (fun a b => SKey.le (sortKey criteria.field b) (sortKey criteria.field a))
      characters

theorem charListLe_refl (l : List Char) : charListLe l l = true := by
  induction l with
  | nil => rfl
  | cons a xs ih => simp [charListLe, ih]

theorem SKey.le_refl (k : SKey) : SKey.le k k = true := by
  cases k with
  | int i => simp [SKey.le]
  | str s => simp [SKey.le, strLe, charListLe_refl]

theorem filter_insertLe_neg (le : α → α → Bool) (p : α → Bool) {x : α}
    (hx : p x = false) (s : List α) :
    (insertLe le x s).filter p = s.filter p := by
  induction s with
  | nil => simp [insertLe, hx]
  | cons y ys ih =>
    by_cases h : le x y <;> simp [insertLe, h, hx, ih, List.filter_cons]

theorem filter_insertLe_pos {κ : Type} [DecidableEq κ] {key : α → κ}
    {le : α → α → Bool} (hle : ∀ a b, key a = key b → le a b = true)
    {v : κ} {x : α} (hx : key x = v) (s : List α) :
    (insertLe le x s).filter (fun a => decide (key a = v)) =
      x :: s.filter (fun a => decide (key a = v)) := by
  induction s with
  | nil => simp [insertLe, hx]
  | cons y ys ih =>
    by_cases h : le x y
    · simp [insertLe, h, hx]
    · have hy : ¬(key y = v) := by
        intro hv
        exact h (hle x y (hx.trans hv.symm))
      simp [insertLe, h, hy, ih, List.filter_cons]

/-- Stability of `sortLe`, characterized per key value: for every value `v`
of the sort key, the subsequence of elements whose key is `v` is exactly the
same (same elements, same order) before and after sorting. -/
theorem filter_sortLe {κ : Type} [DecidableEq κ] (key : α → κ)
    {le : α → α → Bool} (hle : ∀ a b, key a = key b → le a b = true)
    (v : κ) (l : List α) :
    (sortLe le l).filter (fun a => decide (key a = v)) =
      l.filter (fun a => decide (key a = v)) := by
  induction l with
  | nil => rfl
  | cons x xs ih =>
    by_cases hx : key x = v
    · rw [sortLe, filter_insertLe_pos hle hx, ih]
      simp [hx]
    · have hx' : (fun a => decide (key a = v)) x = false := by simp [hx]
      rw [sortLe, filter_insertLe_neg le (fun a => decide (key a = v)) hx', ih]
      simp [hx]

theorem insertLe_perm (le : α → α → Bool) (x : α) (s : List α) :
    (insertLe le x s).Perm (x :: s) := by
  induction s with
  | nil => exact List.Perm.refl _
  | cons y ys ih =>
    by_cases h : le x y
    · simp [insertLe, h]
    · simp only [insertLe, h, if_neg]
      exact (ih.cons y).trans (List.Perm.swap x y ys)

theorem sortLe_perm (le : α → α → Bool) (l : List α) : (sortLe le l).Perm l := by
  induction l with
  | nil => exact List.Perm.refl _
  | cons x xs ih => exact (insertLe_perm le x (sortLe le xs)).trans (ih.cons x)

/-- Three characters for the spec's stability scenario: episode counts 3, 1, 3. -/
def chA3 : Character :=
  { id := 1, name := "A", status := .ALIVE, species := .HUMAN, type := "",
    gender := .MALE, origin := { name := "E" }, location := { name := "E" },
    image_url := "", episode_ids := [1, 2, 3] }

/-- Second scenario character, one episode. -/
def chB1 : Character :=
  { id := 2, name := "B", status := .ALIVE, species := .HUMAN, type := "",
    gender := .MALE, origin := { name := "E" }, location := { name := "E" },
    image_url := "", episode_ids := [1] }

/-- Third scenario character, three episodes again. -/
def chC3 : Character :=
  { id := 3, name := "C", status := .ALIVE, species := .HUMAN, type := "",
    gender := .MALE, origin := { name := "E" }, location := { name := "E" },
    image_url := "", episode_ids := [4, 5, 6] }

/-- C5: `sort_characters` returns a new sequence that is a permutation of the
input (the input itself is untouched — the embedding is pure) and is stable
for every sort criteria: for each key value `v`, the elements whose key is
`v` appear in the output in exactly their input order.  The spec's scenario:
sorting episode counts `[3, 1, 3]` by episodes descending keeps the two
3-episode characters in their original relative order. -/
theorem c5_sort_stable_non_mutating (cs : List Character) (crit : SortCriteria) (v : SKey) :
    (sort_characters cs crit).Perm cs ∧
    (sort_characters cs crit).filter (fun c => decide (sortKey crit.field c = v)) =
      cs.filter (fun c => decide (sortKey crit.field c = v)) ∧
    sort_characters [chA3, chB1, chC3] { field := .EPISODES, order := .DESC } =
      [chA3, chC3, chB1] := by
  obtain ⟨f, o⟩ := crit
  refine ⟨?_, ?_, by decide⟩
  · cases o <;> exact sortLe_perm _ cs
  · cases o
    · exact filter_sortLe (sortKey f) (fun a b hab => by
        rw [hab]
        exact SKey.le_refl _) v cs
    · exact filter_sortLe (sortKey f) (fun a b hab => by
        rw [hab]
        exact SKey.le_refl _) v cs

/-! ### Validator -/

/-- `ValidationError` dataclass. -/
structure ValidationError where
  field : String
  message : String
deriving DecidableEq

/-- `ValidationResult` dataclass. -/
structure ValidationResult where
  is_valid : Bool
  errors : List ValidationError := []
deriving DecidableEq

/-- `CharacterValidator.validate`: both rules checked independently, all
violations collected, validity decided by whether the error list is empty. -/
def validate (character : Character) : ValidationResult :=
  let errors : List ValidationError :=
    (if character.id ≤ 0 then [{ field := "id", message := "ID must be positive" }]
      else []) ++
    (if character.name == "" || pyStrip character.name == "" then
      [{ field := "name", message := "Name cannot be empty" }] else [])
  if errors.isEmpty then { is_valid := true }
  else { is_valid := false, errors := errors }

/-- The name rule's Bool condition collapses to blank-after-strip. -/
theorem name_rule_iff (s : String) :
    (s == "" || pyStrip s == "") = (pyStrip s == "") := by
  by_cases hs : s = ""
  · subst hs
    rfl
  · simp [hs]

/-- The spec's invalid scenario character: `id = -1`, empty name. -/
def chInvalid : Character :=
  { id := -1, name := "", status := .UNKNOWN, species := .UNKNOWN, type := "",
    gender := .UNKNOWN, origin := { name := "E" }, location := { name := "E" },
    image_url := "" }

/-- C7: `validate` is total, checks the two rules independently and collects
every violation: the result is valid with an empty error list exactly when
the id is positive and the name is non-blank after stripping, and
`is_valid` is `false` exactly when some rule is violated; the error fields
list exactly one entry per violated rule; and the scenario
`Character(id = -1, name = "")` yields two errors, one for `id` and one for
`name`. -/
theorem c7_validate_collects_violations (c : Character) :
    (((validate c).is_valid = true ∧ (validate c).errors = []) ↔
      (0 < c.id ∧ pyStrip c.name ≠ "")) ∧
    ((validate c).is_valid = false ↔ (c.id ≤ 0 ∨ pyStrip c.name = "")) ∧
    (validate c).errors.map (fun e => e.field) =
      ((if c.id ≤ 0 then ["id"] else []) ++
        (if pyStrip c.name = "" then ["name"] else [])) ∧
    (validate chInvalid).is_valid = false ∧
    (validate chInvalid).errors.map (fun e => e.field) = ["id", "name"] ∧
    (validate chInvalid).errors.length = 2 := by
  refine ⟨?_, ?_, ?_, by decide, by decide, by decide⟩
  all_goals
    by_cases h1 : c.id ≤ 0 <;> by_cases h2 : pyStrip c.name = "" <;>
      simp [validate, name_rule_iff, h1, h2] <;> omega

/-! ### Statistics service -/

/-- First-occurrence order of the distinct elements of `l` — the key order
of a Python `Counter`/`dict` built by iterating `l`. -/
def firstOccs : List String → List String
  | [] => []
  | x :: xs => x :: (firstOccs xs).filter (fun y => decide (y ≠ x))

/-- Model of `dict(Counter(l))`: each distinct label in first-occurrence
order paired with its multiplicity in `l`. -/
def counterOf (l : List String) : List (String × Nat) :=
  (firstOccs l).map (fun k => (k, l.count k))

/-- Floor of a rational as an integer. -/
def ratFloor (q : ℚ) : Int :=
  Int.fdiv q.num (q.den : Int)

/-- Python `round` (banker's rounding, ties to even) at integer precision,
on an exact rational. -/
def roundHalfEven (q : ℚ) : Int :=
  let f := ratFloor q
  let frac := q - (f : ℚ)
  if frac < 1 / 2 then f
  else if (1 / 2 : ℚ) < frac then f + 1
  else if f % 2 = 0 then f else f + 1

/-- Python `round(x, 2)`, with the float modelled as an exact rational. -/
def round2 (q : ℚ) : ℚ :=
  (roundHalfEven (q * 100) : ℚ) / 100

/-- `CatalogStatistics` dataclass; the distributions keep the dictionaries'
insertion order as association lists. -/
structure CatalogStatistics where
  total_characters : Nat
  status_distribution : List (String × Nat)
  species_distribution : List (String × Nat)
  gender_distribution : List (String × Nat)
  avg_episodes : ℚ
  top_characters : List (String × Nat)
deriving DecidableEq

/-- The descending-episode-count comparison of the source's
`sorted(characters, key=lambda c: c.episode_count, reverse=True)`. -/
def episodesDesc (a b : Character) : Bool :=
  decide (b.episode_count ≤ a.episode_count)

/-- `StatisticsService.calculate`. -/
def calculate (characters : List Character) : CatalogStatistics :=
  if characters.isEmpty then
    { total_characters := 0, status_distribution := [], species_distribution := [],
      gender_distribution := [], avg_episodes := 0, top_characters := [] }
  else
    { total_characters := characters.length
      status_distribution := counterOf (characters.map (fun c => c.status.value))
      species_distribution := counterOf (characters.map (fun c => c.species.value))
      gender_distribution := counterOf (characters.map (fun c => c.gender.value))
      avg_episodes := round2
        ((((characters.map (fun c => c.episode_count) : List Nat)).sum : ℚ) /
          (characters.length : ℚ))
      top_characters :=
        ((sortLe episodesDesc characters).take 5).map (fun c => (c.name, c.episode_count)) }

/-! ### C9: empty aggregate -/

/-- C9: `calculate []` returns the zero-valued statistics — zero total, empty
distributions, average `0.0`, empty top list — rather than failing. -/
theorem c9_aggregate_empty_is_zero :
    calculate [] =
      { total_characters := 0, status_distribution := [], species_distribution := [],
        gender_distribution := [], avg_episodes := 0, top_characters := [] } := rfl

/-! ### C8: top-N ranking and average -/

theorem insertLe_pairwise (le : α → α → Bool)
    (htot : ∀ a b, le a b = true ∨ le b a = true)
    (htrans : ∀ a b c, le a b = true → le b c = true → le a c = true)
    (x : α) (s : List α) (hs : s.Pairwise (fun a b => le a b = true)) :
    (insertLe le x s).Pairwise (fun a b => le a b = true) := by
  induction s with
  | nil => simp [insertLe]
  | cons y ys ih =>
    cases hs with
    | cons hy hys =>
      by_cases h : le x y
      · simp only [insertLe, if_pos h]
        refine List.Pairwise.cons ?_ (List.Pairwise.cons hy hys)
        intro b hb
        rcases List.mem_cons.mp hb with hb | hb
        · subst hb
          exact h
        · exact htrans x y b h (hy b hb)
      · have hyx : le y x = true := (htot x y).resolve_left h
        simp only [insertLe, if_neg h]
        refine List.Pairwise.cons ?_ (ih hys)
        intro b hb
        rcases List.mem_cons.mp ((insertLe_perm le x ys).mem_iff.mp hb) with hb | hb
        · subst hb
          exact hyx
        · exact hy b hb

/-- Sorting with a total, transitive comparison yields a pairwise-ordered list. -/
theorem sortLe_pairwise (le : α → α → Bool)
    (htot : ∀ a b, le a b = true ∨ le b a = true)
    (htrans : ∀ a b c, le a b = true → le b c = true → le a c = true)
    (l : List α) : (sortLe le l).Pairwise (fun a b => le a b = true) := by
  induction l with
  | nil => exact List.Pairwise.nil
  | cons x xs ih => exact insertLe_pairwise le htot htrans x (sortLe le xs) ih

/-- Banker's rounding fixes integers. -/
theorem roundHalfEven_intCast (n : Int) : roundHalfEven ((n : ℚ)) = n := by
  have hnum : ((n : ℚ)).num = n := Rat.num_intCast n
  have hden : (((n : ℚ)).den : Int) = 1 := by
    rw [Rat.den_intCast]
    rfl
  simp only [roundHalfEven, ratFloor, hnum, hden, Int.fdiv_one, sub_self]
  norm_num

/-- `round(x, 2)` fixes integer values. -/
theorem round2_intCast (n : Int) : round2 ((n : ℚ)) = (n : ℚ) := by
  have h : ((n : ℚ)) * 100 = (((n * 100 : Int)) : ℚ) := by push_cast; ring
  rw [round2, h, roundHalfEven_intCast]
  push_cast
  rw [mul_div_assoc]
  norm_num

/-- A character with the given id, name and episode count (used to build the
spec's seven-character scenario). -/
def mkEpChar (i : Int) (nm : String) (k : Nat) : Character :=
  { id := i, name := nm, status := .ALIVE, species := .HUMAN, type := "",
    gender := .FEMALE, origin := { name := "E" }, location := { name := "E" },
    image_url := "", episode_ids := (List.range k).map (fun j => (j : Int)) }

/-- The spec's scenario collection: seven characters with episode counts 1–7. -/
def sevenChars : List Character :=
  [mkEpChar 1 "A" 1, mkEpChar 2 "B" 2, mkEpChar 3 "C" 3, mkEpChar 4 "D" 4,
   mkEpChar 5 "E" 5, mkEpChar 6 "F" 6, mkEpChar 7 "G" 7]

/-- C8: for every character list, `calculate`'s `top_characters` is the
first `min(5, length)` `(name, episode-count)` pairs of the stable
descending-episode-count sort of the input (so counts are non-increasing and
ties keep input order), and `avg_episodes` is the episode-count sum divided
by the character count, rounded to 2 decimal places; on the seven-character
scenario the average is `4.0` and the top list is headed by the 7-episode
character. -/
theorem c8_aggregate_top_five_and_average (cs : List Character) :
    (calculate cs).top_characters =
      ((sortLe episodesDesc cs).take 5).map (fun c => (c.name, c.episode_count)) ∧
    (calculate cs).top_characters.length = min 5 cs.length ∧
    (calculate cs).top_characters.Pairwise (fun p q => q.2 ≤ p.2) ∧
    (∀ n : Nat, (sortLe episodesDesc cs).filter (fun c => decide (c.episode_count = n)) =
      cs.filter (fun c => decide (c.episode_count = n))) ∧
    (calculate cs).avg_episodes =
      round2 ((((cs.map (fun c => c.episode_count) : List Nat)).sum : ℚ) / (cs.length : ℚ)) ∧
    ((calculate sevenChars).avg_episodes = 4 ∧
      (calculate sevenChars).top_characters.head? = some ("G", 7)) := by
  have hpair : (sortLe episodesDesc cs).Pairwise (fun a b => episodesDesc a b = true) :=
    sortLe_pairwise episodesDesc
      (fun a b => by
        simp only [episodesDesc, decide_eq_true_eq]
        exact Nat.le_total _ _)
      (fun a b c hab hbc => by
        simp only [episodesDesc, decide_eq_true_eq] at hab hbc ⊢
        exact Nat.le_trans hbc hab)
      cs
  have hstab : ∀ n : Nat,
      (sortLe episodesDesc cs).filter (fun c => decide (c.episode_count = n)) =
        cs.filter (fun c => decide (c.episode_count = n)) := by
    intro n
    exact filter_sortLe Character.episode_count
      (fun a b hab => by simp [episodesDesc, hab]) n cs
  have hscen : (calculate sevenChars).avg_episodes = 4 ∧
      (calculate sevenChars).top_characters.head? = some ("G", 7) := by
    constructor
    · have hemp : sevenChars.isEmpty = false := by decide
      have hsum : (sevenChars.map (fun c => c.episode_count)).sum = 28 := by decide
      have hlen : sevenChars.length = 7 := by decide
      simp only [calculate, hemp, Bool.false_eq_true, if_false, hsum, hlen]
      have h4 : ((28 : Nat) : ℚ) / ((7 : Nat) : ℚ) = (((4 : Int)) : ℚ) := by norm_num
      rw [h4, round2_intCast]
      norm_num
    · decide
  cases hcs : cs.isEmpty
  · refine ⟨by simp [calculate, hcs], ?_, ?_, hstab, by simp [calculate, hcs], hscen⟩
    · simp [calculate, hcs, (sortLe_perm episodesDesc cs).length_eq]
    · simp only [calculate, hcs, Bool.false_eq_true, if_false]
      rw [List.pairwise_map]
      exact ((hpair.sublist (List.take_sublist 5 _)).imp
        (fun h => by simpa [episodesDesc] using h))
  · have : cs = [] := List.isEmpty_iff.mp hcs
    subst this
    refine ⟨rfl, rfl, List.Pairwise.nil, hstab, ?_, hscen⟩
    have h0 : ((((List.map (fun c => c.episode_count) ([] : List Character) :
        List Nat)).sum : ℚ) / ((([] : List Character).length : Nat) : ℚ)) =
        (((0 : Int)) : ℚ) := by
      norm_num
    rw [h0, round2_intCast]
    norm_num [calculate]

/-! ### C10: distribution counts sum to the total -/

theorem mem_firstOccs {l : List String} {k : String} :
    k ∈ firstOccs l ↔ k ∈ l := by
  induction l with
  | nil => simp [firstOccs]
  | cons x xs ih =>
    simp only [firstOccs, List.mem_cons, List.mem_filter, ih, decide_eq_true_eq]
    by_cases hk : k = x <;> simp [hk]

theorem nodup_firstOccs (l : List String) : (firstOccs l).Nodup := by
  induction l with
  | nil => exact List.Pairwise.nil
  | cons x xs ih =>
    refine List.Pairwise.cons ?_ (ih.filter _)
    intro b hb
    have := (List.mem_filter.mp hb).2
    simp only [decide_eq_true_eq] at this
    exact fun hxb => this (hxb ▸ rfl)

theorem sum_map_add_nat {L : List β} (f g : β → Nat) :
    (L.map (fun k => f k + g k)).sum = (L.map f).sum + (L.map g).sum := by
  induction L with
  | nil => rfl
  | cons b bs ih =>
    simp only [List.map_cons, List.sum_cons, ih]
    omega

theorem sum_indicator_not_mem {L : List String} {x : String} (hx : x ∉ L) :
    (L.map (fun k => if k = x then 1 else 0)).sum = 0 := by
  induction L with
  | nil => rfl
  | cons y L' ih =>
    have hxy : ¬(y = x) := fun h => hx (h ▸ List.mem_cons_self y L')
    simp only [List.map_cons, List.sum_cons, if_neg hxy,
      ih (fun h => hx (List.mem_cons_of_mem y h))]

theorem sum_indicator_nodup {L : List String} (hnd : L.Nodup) {x : String}
    (hx : x ∈ L) :
    (L.map (fun k => if k = x then 1 else 0)).sum = 1 := by
  induction L with
  | nil => cases hx
  | cons y L' ih =>
    cases hnd with
    | cons hy hnd' =>
      by_cases hxy : y = x
      · subst hxy
        have hnot : y ∉ L' := fun h => (hy y h) rfl
        simp [sum_indicator_not_mem hnot]
      · rcases List.mem_cons.mp hx with h | h
        · exact absurd h.symm hxy
        · simp [if_neg hxy, ih hnd' h]

theorem sum_count_of_nodup (L : List String) (hnd : L.Nodup) (xs : List String)
    (hsub : ∀ k, k ∈ xs → k ∈ L) :
    (L.map (fun k => xs.count k)).sum = xs.length := by
  induction xs with
  | nil => simp [List.count_nil]
  | cons x xs' ih =>
    have hx : x ∈ L := hsub x (List.mem_cons_self x xs')
    have hsub' : ∀ k, k ∈ xs' → k ∈ L := fun k hk => hsub k (List.mem_cons_of_mem x hk)
    have hcount : ∀ k, (x :: xs').count k = xs'.count k + if k = x then 1 else 0 := by
      intro k
      by_cases hk : k = x <;> simp [List.count_cons, hk]
    simp only [hcount]
    rw [sum_map_add_nat, ih hsub', sum_indicator_nodup hnd hx]
    simp

/-- The counts of `dict(Counter(l))` sum to the length of `l`. -/
theorem counterOf_sum (l : List String) :
    ((counterOf l).map Prod.snd).sum = l.length := by
  simp only [counterOf, List.map_map]
  exact sum_count_of_nodup (firstOccs l) (nodup_firstOccs l) l
    (fun k hk => mem_firstOccs.mpr hk)

/-- C10: in the statistics returned by `calculate`, the counts of the status
distribution sum to `total_characters`, and likewise for the species and
gender distributions — every character is counted exactly once per
distribution, keyed by its enum's label string. -/
theorem c10_distribution_sums_to_total (cs : List Character) :
    ((calculate cs).status_distribution.map Prod.snd).sum =
      (calculate cs).total_characters ∧
    ((calculate cs).species_distribution.map Prod.snd).sum =
      (calculate cs).total_characters ∧
    ((calculate cs).gender_distribution.map Prod.snd).sum =
      (calculate cs).total_characters := by
  cases hcs : cs.isEmpty
  · refine ⟨?_, ?_, ?_⟩ <;>
      simp [calculate, hcs, counterOf_sum]
  · have : cs = [] := List.isEmpty_iff.mp hcs
    subst this
    exact ⟨rfl, rfl, rfl⟩

end RMCatalog
